import Mathlib

/-
  Verification of the jxp-helper client library (src/jxp-helper.js) against its
  natural-language specification.

  The development is a shallow embedding of the request-construction and
  response-normalization layer of the JXPHelper class:

  * Query values, option mappings and the query-string builder `_configParams`
    (source lines 37-51) are modelled as association lists in insertion order;
    JavaScript `for..in` enumerates the (non-integer) string keys of an object
    in insertion order, and property assignment `opts[k] = v` overwrites an
    existing key in place (keeping its position) or appends a new key at the
    end.  `encodeURIComponent` is modelled byte-for-byte (UTF-8, uppercase hex,
    unreserved set A-Z a-z 0-9 - _ . ! ~ * apostrophe ( ) ).
  * The axios transport is modelled by `Outcome`: a fulfilled response (axios
    fulfils exactly for 2xx statuses under the default validateStatus), or a
    rejection that either carries the completed non-2xx HTTP response or is a
    raw transport error with no response.
  * Each operation is modelled as a pure function from its inputs (and, where
    it consults the network, from the transport outcome) to the ordered list
    of HTTP requests it issues together with its result, where `Except.ok` is a
    resolved promise and `Except.error` a rejected one.
-/

namespace JXP

/-! ## encodeURIComponent -/

/-- The characters `encodeURIComponent` leaves unescaped:
`A-Z a-z 0-9 - _ . ! ~ *` plus apostrophe (written via its code 39) and the two parentheses. -/
def uriUnreservedChar (c : Char) : Bool :=
  c.isAlpha || c.isDigit ||
  c == '-' || c == '_' || c == '.' || c == '!' || c == '~' || c == '*' ||
  c == Char.ofNat 39 || c == '(' || c == ')'

/-- Uppercase hexadecimal digit for a value below 16. -/
def hexDigitChar (n : Nat) : Char :=
  if n < 10 then Char.ofNat (48 + n) else Char.ofNat (55 + n)

/-- Percent escape `%XX` of one byte, uppercase hex, as produced by `encodeURIComponent`. -/
def percentByte (b : Nat) : String :=
  "%" ++ String.singleton (hexDigitChar (b / 16)) ++ String.singleton (hexDigitChar (b % 16))

/-- UTF-8 bytes of a Unicode scalar value. -/
def utf8Bytes (n : Nat) : List Nat :=
  if n < 0x80 then [n]
  else if n < 0x800 then [0xC0 ||| (n >>> 6), 0x80 ||| (n &&& 0x3F)]
  else if n < 0x10000 then
    [0xE0 ||| (n >>> 12), 0x80 ||| ((n >>> 6) &&& 0x3F), 0x80 ||| (n &&& 0x3F)]
  else
    [0xF0 ||| (n >>> 18), 0x80 ||| ((n >>> 12) &&& 0x3F),
     0x80 ||| ((n >>> 6) &&& 0x3F), 0x80 ||| (n &&& 0x3F)]

/-- One character of `encodeURIComponent` output. -/
def encodeChar (c : Char) : String :=
  if uriUnreservedChar c then String.singleton c
  else String.join ((utf8Bytes c.toNat).map percentByte)

/-- JavaScript `encodeURIComponent`. -/
def encodeURIComponent (s : String) : String :=
  String.join (s.toList.map encodeChar)

/-! ## Query options

A JavaScript object used as a query-options mapping: keys in insertion order,
each bound to a scalar (string or number, coerced to a string by the `+`
template concatenation in the source) or to an array of scalars. -/

/-- A scalar query-option value; `render` is the JavaScript string coercion
applied by `opt + "=" + encodeURIComponent(val)`. -/
inductive QScalar
  | str (s : String)
  | num (n : Int)
deriving DecidableEq, Repr

def QScalar.render : QScalar → String
  | QScalar.str s => s
  | QScalar.num n => toString n

/-- A query-option value: a scalar, or an array of scalars (source line 42,
`Array.isArray(opts[opt])`). -/
inductive QVal
  | scalar (v : QScalar)
  | seq (l : List QScalar)
deriving DecidableEq, Repr

/-- An options object: association list in insertion order, keys unique
(JavaScript objects cannot hold a key twice). -/
abbrev OptsMap := List (String × QVal)

/-- Property read `m[k]`: the value at the first (only) occurrence of `k`. -/
def findVal (m : OptsMap) (k : String) : Option QVal :=
  match m with
  | [] => Option.none
  | p :: t => if p.1 = k then some p.2 else findVal t k

/-- Property write `m[k] = v`: overwrite in place if the key exists (keeping
its position), otherwise append the new key at the end. -/
def setKey (m : OptsMap) (k : String) (v : QVal) : OptsMap :=
  if m.any (fun p => p.1 == k) then
    m.map (fun p => if p.1 = k then (k, v) else p)
  else m ++ [(k, v)]

/-- The `key=value` pairs one entry of the mapping contributes (source lines
41-49): an array pushes one part per element, in element order; a scalar
pushes one part.  Keys are emitted verbatim; only values are passed through
`encodeURIComponent`. -/
def expandPair (p : String × QVal) : List (String × String) :=
  match p.2 with
  | QVal.scalar v => [(p.1, encodeURIComponent v.render)]
  | QVal.seq l => l.map (fun v => (p.1, encodeURIComponent v.render))

/-- All `key=value` pairs of a mapping, in insertion order. -/
def pairsOf (m : OptsMap) : List (String × String) :=
  m.flatMap expandPair

/-- Number of parts an entry contributes. -/
def qvalLen : QVal → Nat
  | QVal.scalar _ => 1
  | QVal.seq l => l.length

/-! ## Client state -/

/-- The JXPHelper instance fields set by the constructor (source lines 16-25):
`api` is derived once, at construction, as `server + "/api"`, and `config`
(lines 31-35) never recomputes it. -/
structure Client where
  server : String
  api : String
  apikey : String
  debug : Bool
  hideErrors : Bool
deriving DecidableEq, Repr

/-- A partial configuration object as passed to the constructor or to
`config`: `none` models an absent property.  (The source `config` copies every
own property of its argument; the four fields here are the ones the class
reads.  Note `api` is not among them, so `config({server})` leaves `api`
untouched.) -/
structure ConfigPatch where
  server : Option String
  apikey : Option String
  debug : Option Bool
  hideErrors : Option Bool
deriving DecidableEq, Repr

/-- The result of `_configParams` (source lines 37-51): the mutated options
object (the very object of the caller, with `apikey` written into it), the structured
`key=value` parts, and the joined query string.  The source keeps the parts as
already-joined strings `opt + "=" + encodeURIComponent(val)`; `pairs` is the
same list with each part split at its `=`. -/
structure ParamsOut where
  opts : OptsMap
  pairs : List (String × String)
  qs : String
deriving DecidableEq, Repr

/-- Source lines 37-51.  `opts.apikey = this.apikey` mutates the caller
object (overwriting any apikey the caller supplied, or appending the key);
then every entry is expanded to parts and the parts are joined with `&`. -/
def _configParams (c : Client) (opts : OptsMap) : ParamsOut :=
  let opts2 := setKey opts "apikey" (QVal.scalar (QScalar.str c.apikey))
  let pairs := pairsOf opts2
  { opts := opts2
    pairs := pairs
    qs := String.intercalate "&" (pairs.map (fun p => p.1 ++ "=" ++ p.2)) }

/-! ## Requests -/

/-- An opaque persisted record: field name to (string) field value.  The
client reads only `_id` and caller-specified key fields, all carrying string
values in the scenarios of this development. -/
abbrev JsRecord := List (String × String)

/-- JavaScript property read `r[k]`: `none` models `undefined`. -/
def recGet (r : JsRecord) (k : String) : Option String :=
  match r with
  | [] => Option.none
  | p :: t => if p.1 = k then some p.2 else recGet t k

structure UpdateOneOp where
  upsert : Bool
  update : JsRecord
  filter : List (String × Option String)
deriving DecidableEq, Repr

/-- The bulk-operation shapes this development needs. -/
inductive BulkOp
  | updateOne (op : UpdateOneOp)
deriving DecidableEq, Repr

/-- A request body. -/
inductive ReqBody
  | none
  | record (r : JsRecord)
  | queryWrap (q : String)
  | bulk (ops : List BulkOp)
  | loginCreds (email password : String)
deriving DecidableEq, Repr

inductive Method
  | GET
  | POST
  | PUT
  | DELETE
deriving DecidableEq, Repr

structure Request where
  method : Method
  url : String
  body : ReqBody
deriving DecidableEq, Repr

/-! ## Construction and configuration -/

/-- The constructor (source lines 16-25).  Defaults `{debug:false,
hideErrors:false}` are overridden by the supplied options via `Object.assign`;
`config(opts)` copies every field; `if (!this.server) throw ...` fires exactly
when `server` is absent (undefined, falsy) or the empty string; only then is
`this.api = this.server + "/api"` derived.  The JavaScript literal thrown is
`parameter server required` (the JavaScript literal quotes the word server;
it is rendered here without the quotes).  The
constructor contains no axios call, which the empty request list records.  An
absent `apikey` is `undefined` and would interpolate into URLs as the string
`"undefined"`, which is how it is defaulted here. -/
def construct (opts : ConfigPatch) : List Request × Except String Client :=
  let server := opts.server.getD ""
  if server = "" then ([], Except.error "parameter server required")
  else
    ([], Except.ok
      { server := server
        api := server ++ "/api"
        apikey := opts.apikey.getD "undefined"
        debug := opts.debug.getD false
        hideErrors := opts.hideErrors.getD false })

/-- Method `config` (source lines 31-35): every supplied field is copied onto the
instance.  `api` is not recomputed — it keeps its construction-time value. -/
def config (c : Client) (opts : ConfigPatch) : Client :=
  { c with
    server := opts.server.getD c.server
    apikey := opts.apikey.getD c.apikey
    debug := opts.debug.getD c.debug
    hideErrors := opts.hideErrors.getD c.hideErrors }

/-! ## URL builders and the requests of the option-taking operations -/

/-- Method `url(type, opts, ep)` (source lines 66-68); the second component is
the options object of the caller after the `_configParams` mutation. -/
def url (c : Client) (type : String) (opts : OptsMap) (ep : String) : String × OptsMap :=
  let out := _configParams c opts
  (c.server ++ "/" ++ ep ++ "/" ++ type ++ "?" ++ out.qs, out.opts)

/-- Method `get` (source lines 122-138): GET on `url(type, opts)` with the default
`api` endpoint segment. -/
def get_request (c : Client) (type : String) (opts : OptsMap) : Request × OptsMap :=
  let u := url c type opts "api"
  ({ method := Method.GET, url := u.1, body := ReqBody.none }, u.2)

/-- Method `getOne` (source lines 96-112): GET on `this.api + "/" + type + "/" + id`
— note the URL root is the `api` field, not the live `server` field. -/
def getOne_request (c : Client) (type id : String) (opts : OptsMap) : Request × OptsMap :=
  let out := _configParams c opts
  ({ method := Method.GET
     url := c.api ++ "/" ++ type ++ "/" ++ id ++ "?" ++ out.qs
     body := ReqBody.none }, out.opts)

/-- Method `csv` (source lines 147-163). -/
def csv_request (c : Client) (type : String) (opts : OptsMap) : Request × OptsMap :=
  let out := _configParams c opts
  ({ method := Method.GET
     url := c.server ++ "/csv/" ++ type ++ "?" ++ out.qs
     body := ReqBody.none }, out.opts)

/-- Method `query` (source lines 173-189): POST of the wrapped query object. -/
def query_request (c : Client) (type q : String) (opts : OptsMap) : Request × OptsMap :=
  let out := _configParams c opts
  ({ method := Method.POST
     url := c.server ++ "/query/" ++ type ++ "?" ++ out.qs
     body := ReqBody.queryWrap q }, out.opts)

/-- Method `aggregate` (source lines 199-215): POST of the wrapped query object. -/
def aggregate_request (c : Client) (type q : String) (opts : OptsMap) : Request × OptsMap :=
  let out := _configParams c opts
  ({ method := Method.POST
     url := c.server ++ "/aggregate/" ++ type ++ "?" ++ out.qs
     body := ReqBody.queryWrap q }, out.opts)

/-- Method `count` (source lines 361-379): `opts.limit = 1` is written into the
caller object (the number `1`, serialized as `"1"`) before
`url(type, opts, "count")` injects the apikey and builds the URL. -/
def count_request (c : Client) (type : String) (opts : OptsMap) : Request × OptsMap :=
  let opts1 := setKey opts "limit" (QVal.scalar (QScalar.num 1))
  let u := url c type opts1 "count"
  ({ method := Method.GET, url := u.1, body := ReqBody.none }, u.2)

/-- Method `post` (source lines 388-397): POST on `this.api`, apikey interpolated
directly (not through `_configParams`). -/
def post_request (c : Client) (type : String) (data : JsRecord) : Request :=
  { method := Method.POST
    url := c.api ++ "/" ++ type ++ "?apikey=" ++ c.apikey
    body := ReqBody.record data }

/-- Method `put` (source lines 409-418): PUT on `this.api`. -/
def put_request (c : Client) (type id : String) (data : JsRecord) : Request :=
  { method := Method.PUT
    url := c.api ++ "/" ++ type ++ "/" ++ id ++ "?apikey=" ++ c.apikey
    body := ReqBody.record data }

/-- Method `del` (source lines 456-464): DELETE on `this.api`. -/
def del_request (c : Client) (type id : String) : Request :=
  { method := Method.DELETE
    url := c.api ++ "/" ++ type ++ "/" ++ id ++ "?apikey=" ++ c.apikey
    body := ReqBody.none }

/-! ## Transport outcomes and error normalization

Axios (default `validateStatus`) fulfils its promise exactly for 2xx statuses;
any completed non-2xx response rejects with an error whose `response` field
holds the completed response, and a transport failure rejects with an error
that has no `response`.  `α` is the type of response bodies, `ε` the type of
raw error objects. -/

structure Response (α : Type) where
  status : Nat
  statusText : String
  data : α
deriving DecidableEq, Repr

inductive Outcome (α ε : Type)
  | fulfilled (r : Response α)
  | rejected (response : Option (Response α)) (err : ε)
deriving DecidableEq, Repr

/-- A value an operation can reject with: the `data` field of the error
completed response, the raw error object itself, or (for the operations with
the explicit status check) the `statusText` string thrown inside the `try`
block and rethrown unchanged by the `catch` (a string has no `.response`). -/
inductive Thrown (α ε : Type)
  | body (a : α)
  | raw (e : ε)
  | text (s : String)
deriving DecidableEq, Repr

/-- Result normalization of `get`/`csv`/`query`/`aggregate`/`count` (e.g.
source lines 126-137): a fulfilled response with `status !== 200` throws
`result.statusText` inside the `try`, which the `catch` rethrows as-is; a
rejection rethrows `err.response ? err.response.data : err`. -/
def checkedResult {α ε : Type} (o : Outcome α ε) : Except (Thrown α ε) α :=
  match o with
  | Outcome.fulfilled r =>
      if r.status ≠ 200 then Except.error (Thrown.text r.statusText)
      else Except.ok r.data
  | Outcome.rejected (some r) _ => Except.error (Thrown.body r.data)
  | Outcome.rejected Option.none e => Except.error (Thrown.raw e)

/-- Result normalization of `post`/`put`/`del` (e.g. source lines 391-396):
no status check — any fulfilled (2xx) response resolves with its body; a
rejection rethrows `err.response ? err.response.data : err`. -/
def uncheckedResult {α ε : Type} (o : Outcome α ε) : Except (Thrown α ε) α :=
  match o with
  | Outcome.fulfilled r => Except.ok r.data
  | Outcome.rejected (some r) _ => Except.error (Thrown.body r.data)
  | Outcome.rejected Option.none e => Except.error (Thrown.raw e)

/-- Method `get`, source lines 122-138. -/
def get_result {α ε : Type} : Outcome α ε → Except (Thrown α ε) α := checkedResult

/-- Method `query`, source lines 173-189. -/
def query_result {α ε : Type} : Outcome α ε → Except (Thrown α ε) α := checkedResult

/-- Method `aggregate`, source lines 199-215. -/
def aggregate_result {α ε : Type} : Outcome α ε → Except (Thrown α ε) α := checkedResult

/-- Method `count`, source lines 361-379 (on success the source then projects
`result.data.count` out of the body; the failure normalization, which is what
this development reasons about, is the checked pattern verbatim). -/
def count_result {α ε : Type} : Outcome α ε → Except (Thrown α ε) α := checkedResult

/-- Method `post`, source lines 388-397. -/
def post_result {α ε : Type} : Outcome α ε → Except (Thrown α ε) α := uncheckedResult

/-- Method `put`, source lines 409-418. -/
def put_result {α ε : Type} : Outcome α ε → Except (Thrown α ε) α := uncheckedResult

/-- Method `del`, source lines 456-464. -/
def del_result {α ε : Type} : Outcome α ε → Except (Thrown α ε) α := uncheckedResult

/-! ## login -/

/-- What `login` can resolve with: the `{data, user}` pair on success, or —
its documented quirk — the error response body of a failed call. -/
inductive LoginValue
  | success (data user : JsRecord)
  | errorBody (body : JsRecord)
deriving DecidableEq, Repr

/-- The TypeError raised by `err.response.data` (source line 83) when the
caught error has no `response` (a raw transport failure): `err.response` is
`undefined` and reading `.data` off it throws, so `login` rejects. -/
def loginTypeError : String :=
  "TypeError: cannot read properties of undefined (reading data)"

/-- Method `login` (source lines 77-85).  Two sequential axios calls: POST
`{server}/login` with the credentials, then GET
`{api}/user/{data.user_id}?apikey={apikey}`.  Any rejection lands in the
single `catch`, which executes `return err.response.data`: if the error
carries a response this *resolves* with the response body; if not, reading
`.data` of `undefined` throws a TypeError and `login` rejects with it. -/
def login (c : Client) (email password : String)
    (o1 o2 : Outcome JsRecord String) :
    List Request × Except String LoginValue :=
  let req1 : Request :=
    { method := Method.POST
      url := c.server ++ "/login"
      body := ReqBody.loginCreds email password }
  match o1 with
  | Outcome.fulfilled r1 =>
      let data := r1.data
      let uid := (recGet data "user_id").getD "undefined"
      let req2 : Request :=
        { method := Method.GET
          url := c.api ++ "/user/" ++ uid ++ "?apikey=" ++ c.apikey
          body := ReqBody.none }
      match o2 with
      | Outcome.fulfilled r2 =>
          ([req1, req2], Except.ok (LoginValue.success data r2.data))
      | Outcome.rejected (some r) _ =>
          ([req1, req2], Except.ok (LoginValue.errorBody r.data))
      | Outcome.rejected Option.none _ =>
          ([req1, req2], Except.error loginTypeError)
  | Outcome.rejected (some r) _ => ([req1], Except.ok (LoginValue.errorBody r.data))
  | Outcome.rejected Option.none _ => ([req1], Except.error loginTypeError)

/-! ## postput -/

/-- The `{data, count}` envelope a successful filtered `get` returns (backend
contract; `postput` reads only `result.data`). -/
structure GetEnvelope where
  data : List JsRecord
  count : Nat
deriving DecidableEq, Repr

/-- The options object `postput` builds at source lines 432-433:
`obj["filter[" + key + "]"] = data[key]` (an absent `data[key]` is
`undefined`, which serializes as the string `"undefined"`). -/
def postput_get_opts (key : String) (data : JsRecord) : OptsMap :=
  [("filter[" ++ key ++ "]", QVal.scalar (QScalar.str ((recGet data key).getD "undefined")))]

/-- Method `postput` (source lines 430-446), on the path where the lookup `get`
succeeds with `fetched`: if `result.data.length` is zero (falsy) it issues one
`post` with `data`; otherwise one `put` targeting `result.data[0]._id`. -/
def postput (c : Client) (type key : String) (data : JsRecord) (fetched : GetEnvelope) :
    List Request :=
  let getReq := (get_request c type (postput_get_opts key data)).1
  match fetched.data with
  | [] => [getReq, post_request c type data]
  | first :: _ =>
      [getReq, put_request c type ((recGet first "_id").getD "undefined") data]

/-! ## bulk_postput -/

/-- The `key` argument of `bulk_postput`: a single field name or an array of
field names (source line 239, `Array.isArray(key)`). -/
inductive KeySpec
  | single (k : String)
  | multi (ks : List String)
deriving DecidableEq, Repr

/-- The filter built for one record (source lines 238-245):
`filter[k] = item[k]` for each key field. -/
def bulkFilter (key : KeySpec) (item : JsRecord) : List (String × Option String) :=
  match key with
  | KeySpec.single k => [(k, recGet item k)]
  | KeySpec.multi ks => ks.map (fun k => (k, recGet item k))

/-- The `updates` array (source lines 231-247): one
`{updateOne: {upsert: true, update: item, filter}}` per record, in order. -/
def bulk_postput_updates (key : KeySpec) (data : List JsRecord) : List BulkOp :=
  data.map (fun item =>
    BulkOp.updateOne { upsert := true, update := item, filter := bulkFilter key item })

/-- The `data` argument: a single record or an array (source line 230,
`Array.isArray(data)`). -/
inductive DataArg
  | one (r : JsRecord)
  | many (rs : List JsRecord)
deriving DecidableEq, Repr

/-- What `bulk_postput` does with its data argument. -/
inductive BulkDispatch
  | delegate (type : String) (key : KeySpec) (data : JsRecord)
  | bulkRequest (req : Request)
deriving DecidableEq, Repr

/-- Method `bulk_postput` (source lines 228-254): a non-array delegates to `postput`;
an array is mapped to `updates` and sent as one POST to
`{server}/bulkwrite/{type}?apikey={apikey}`. -/
def bulk_postput (c : Client) (type : String) (key : KeySpec) (data : DataArg) :
    BulkDispatch :=
  match data with
  | DataArg.one r => BulkDispatch.delegate type key r
  | DataArg.many rs =>
      BulkDispatch.bulkRequest
        { method := Method.POST
          url := c.server ++ "/bulkwrite/" ++ type ++ "?apikey=" ++ c.apikey
          body := ReqBody.bulk (bulk_postput_updates key rs) }

/-! ## del_all and sync (both unreachable past their first step in the source) -/

/-- The error `del_all` rejects with. -/
def delAllRefError : String := "ReferenceError: self is not defined"

/-- Method `del_all` (source lines 529-543).  Line 534 evaluates `self.get(type,
obj)`, but the identifier `self` is bound nowhere in the module and Node.js
defines no global `self`, so evaluating it throws a ReferenceError before any
request is issued; the `catch` at lines 539-542 rethrows it unchanged (a
ReferenceError has no `.response`).  No fetched record, and hence no delete
request, can ever be produced, so neither the server state nor any transport
outcome is an input of this model. -/
def del_all (c : Client) (type key id : String) : List Request × Except String (List JsRecord) :=
  ([], Except.error delAllRefError)

/-- The error `sync` rejects with. -/
def syncTypeError : String :=
  "TypeError: cannot read properties of undefined (reading filter)"

/-- Method `sync` (source lines 545-576).  Line 551, `const data = await
this.get(type, obj).data`, calls `this.get` — so the filtered GET request is
issued — but then reads the `.data` property of the still-pending Promise,
which is `undefined`, and awaits that; the new local `data` (which shadows the
`data` parameter holding the desired records) is therefore `undefined`.  Line
552 then evaluates `undefined.filter(...)`, throwing a TypeError, and the
`catch` at lines 572-575 rethrows it (a TypeError has no `.response`).  No
insert, update or delete is ever issued, and neither the fetched records nor
the `desired` argument influence the outcome. -/
def sync (c : Client) (type key id : String) (desired : List JsRecord) :
    List Request × Except String (List JsRecord) :=
  let obj : OptsMap := [("filter[" ++ key ++ "]", QVal.scalar (QScalar.str id))]
  ([(get_request c type obj).1], Except.error syncTypeError)

/-! ## A concrete client used by the closed theorems -/

/-- The client produced by `new JXPHelper({server: "http://a", apikey: "k"})`. -/
def clientEx : Client :=
  { server := "http://a", api := "http://a/api", apikey := "k"
    debug := false, hideErrors := false }

/-! ## Helper lemmas about option mappings -/

theorem expandPair_filter_self (k : String) (v : QVal) :
    (expandPair (k, v)).filter (fun p => p.1 == k) = expandPair (k, v) := by
  rw [List.filter_eq_self]
  intro a ha
  cases v with
  | scalar x =>
      simp only [expandPair, List.mem_singleton] at ha
      subst ha
      simp
  | seq l =>
      simp only [expandPair, List.mem_map] at ha
      obtain ⟨x, _, rfl⟩ := ha
      simp

theorem expandPair_filter_ne (k1 k : String) (v : QVal) (h : ¬ k1 = k) :
    (expandPair (k1, v)).filter (fun p => p.1 == k) = [] := by
  rw [List.filter_eq_nil_iff]
  intro a ha
  cases v with
  | scalar x =>
      simp only [expandPair, List.mem_singleton] at ha
      subst ha
      simp [h]
  | seq l =>
      simp only [expandPair, List.mem_map] at ha
      obtain ⟨x, _, rfl⟩ := ha
      simp [h]

theorem pairsOf_nil : pairsOf [] = [] := rfl

theorem pairsOf_cons (q : String × QVal) (t : OptsMap) :
    pairsOf (q :: t) = expandPair q ++ pairsOf t := by
  simp [pairsOf]

theorem pairsOf_filter_not_mem (m : OptsMap) (k : String)
    (h : ∀ p ∈ m, ¬ p.1 = k) :
    (pairsOf m).filter (fun p => p.1 == k) = [] := by
  induction m with
  | nil => rfl
  | cons q t ih =>
      obtain ⟨k1, v1⟩ := q
      have h1 : ¬ k1 = k := h (k1, v1) (by simp)
      have h2 : ∀ p ∈ t, ¬ p.1 = k := fun p hp => h p (by simp [hp])
      rw [pairsOf_cons, List.filter_append, expandPair_filter_ne k1 k v1 h1, ih h2]
      rfl

/-- Filtering the serialized pairs down to one key recovers exactly the
expansion of the entry of that key (keys are unique in an options object). -/
theorem pairsOf_filter_findVal (m : OptsMap) (k : String) (v : QVal)
    (hm : (m.map Prod.fst).Nodup) (h : findVal m k = some v) :
    (pairsOf m).filter (fun p => p.1 == k) = expandPair (k, v) := by
  induction m with
  | nil => simp [findVal] at h
  | cons q t ih =>
      obtain ⟨k1, v1⟩ := q
      rw [List.map_cons, List.nodup_cons] at hm
      by_cases hk : k1 = k
      · subst hk
        have hv : v1 = v := by
          simp [findVal] at h
          exact h
        subst hv
        have hnot : ∀ p ∈ t, ¬ p.1 = k1 := by
          intro p hp hpk
          exact hm.1 (List.mem_map.mpr ⟨p, hp, hpk⟩)
        rw [pairsOf_cons, List.filter_append, expandPair_filter_self,
          pairsOf_filter_not_mem t k1 hnot, List.append_nil]
      · have h' : findVal t k = some v := by
          simpa [findVal, hk] using h
        rw [pairsOf_cons, List.filter_append, expandPair_filter_ne k1 k v1 hk,
          ih hm.2 h', List.nil_append]

theorem map_fst_pairs {β : Type} (k : String) (f : β → String × String) (l : List β)
    (hf : ∀ b, (f b).1 = k) :
    (l.map f).map Prod.fst = List.replicate l.length k := by
  induction l with
  | nil => rfl
  | cons a t ih => simp [List.replicate_succ, ih, hf]

/-- The keys of the serialized pairs, grouped in the insertion
order: each entry contributes its key once per part. -/
theorem pairsOf_keys (m : OptsMap) :
    (pairsOf m).map Prod.fst = m.flatMap (fun p => List.replicate (qvalLen p.2) p.1) := by
  induction m with
  | nil => rfl
  | cons q t ih =>
      obtain ⟨k1, v1⟩ := q
      rw [pairsOf_cons, List.map_append, ih, List.flatMap_cons]
      congr 1
      cases v1 with
      | scalar x => rfl
      | seq l =>
          rw [expandPair, qvalLen]
          exact map_fst_pairs k1 _ l (fun b => rfl)

theorem setKey_map_fst_of_any (m : OptsMap) (k : String) (v : QVal)
    (h : m.any (fun p => p.1 == k) = true) :
    (setKey m k v).map Prod.fst = m.map Prod.fst := by
  rw [setKey, if_pos h, List.map_map]
  apply List.map_congr_left
  intro p _
  by_cases hpk : p.1 = k
  · simp [hpk]
  · simp [hpk]

theorem setKey_nodup (m : OptsMap) (k : String) (v : QVal)
    (hm : (m.map Prod.fst).Nodup) :
    ((setKey m k v).map Prod.fst).Nodup := by
  by_cases h : m.any (fun p => p.1 == k) = true
  · rw [setKey_map_fst_of_any m k v h]
    exact hm
  · rw [setKey, if_neg h, List.map_append]
    have hk : k ∉ m.map Prod.fst := by
      intro hmem
      apply h
      rw [List.any_eq_true]
      obtain ⟨p, hp, hpk⟩ := List.mem_map.mp hmem
      exact ⟨p, hp, by simp [hpk]⟩
    rw [List.nodup_append]
    refine ⟨hm, List.nodup_singleton k, ?_⟩
    intro x hx hx'
    simp at hx'
    subst hx'
    exact hk hx

theorem findVal_replace (m : OptsMap) (k : String) (v : QVal)
    (h : m.any (fun p => p.1 == k) = true) :
    findVal (m.map (fun p => if p.1 = k then (k, v) else p)) k = some v := by
  induction m with
  | nil => simp at h
  | cons q t ih =>
      by_cases hq : q.1 = k
      · simp [findVal, hq]
      · have h' : t.any (fun p => p.1 == k) = true := by
          simpa [List.any_cons, hq] using h
        simp [findVal, hq, ih h']

theorem findVal_append_self (m : OptsMap) (k : String) (v : QVal)
    (h : ∀ p ∈ m, ¬ p.1 = k) :
    findVal (m ++ [(k, v)]) k = some v := by
  induction m with
  | nil => simp [findVal]
  | cons q t ih =>
      have hq : ¬ q.1 = k := h q (by simp)
      rw [List.cons_append]
      simp [findVal, hq, ih (fun p hp => h p (by simp [hp]))]

/-- Property write then read of the same key gives the written value. -/
theorem findVal_setKey_self (m : OptsMap) (k : String) (v : QVal) :
    findVal (setKey m k v) k = some v := by
  rw [setKey]
  by_cases h : m.any (fun p => p.1 == k) = true
  · rw [if_pos h]
    exact findVal_replace m k v h
  · rw [if_neg h]
    apply findVal_append_self
    intro p hp hpk
    exact h (List.any_eq_true.mpr ⟨p, hp, by simp [hpk]⟩)

/-- Property write leaves every other key unchanged. -/
theorem findVal_setKey_other (m : OptsMap) (k : String) (v : QVal) (k2 : String)
    (hne : ¬ k2 = k) :
    findVal (setKey m k v) k2 = findVal m k2 := by
  have hk2 : ¬ k = k2 := fun hkk => hne hkk.symm
  rw [setKey]
  by_cases h : m.any (fun p => p.1 == k) = true
  · rw [if_pos h]
    clear h
    induction m with
    | nil => rfl
    | cons q t ih =>
        by_cases hq : q.1 = k
        · simp [findVal, hq, hk2, ih]
        · simp [findVal, hq, ih]
  · rw [if_neg h]
    clear h
    induction m with
    | nil => simp [findVal, hk2]
    | cons q t ih =>
        by_cases hq2 : q.1 = k2
        · simp [findVal, hq2]
        · simp [findVal, hq2, ih]

/-! ## Claim theorems -/

/-- C1 (amended).  If the transport rejects, each of
`get/query/aggregate/count/post/put/del` fails with the error response body
when the error carries a completed response, and with the raw transport error
otherwise, and never resolves.  On a fulfilled (2xx) response, however, the
seven operations are not uniform: `get`, `query`, `aggregate` and `count`
additionally fail — with the `statusText` of the response, not its body — when the
status is a 2xx other than 200, while `post`, `put` and `del` have no status
check and resolve with the body for every fulfilled response.  The uniform claim "non-200/non-2xx status implies failure with the body" is refuted by
`c1_counterexample`. -/
theorem c1_error_normalization {α ε : Type} (o : Outcome α ε) :
    (∀ r e, o = Outcome.rejected (some r) e →
      get_result o = Except.error (Thrown.body r.data) ∧
      query_result o = Except.error (Thrown.body r.data) ∧
      aggregate_result o = Except.error (Thrown.body r.data) ∧
      count_result o = Except.error (Thrown.body r.data) ∧
      post_result o = Except.error (Thrown.body r.data) ∧
      put_result o = Except.error (Thrown.body r.data) ∧
      del_result o = Except.error (Thrown.body r.data)) ∧
    (∀ e, o = Outcome.rejected Option.none e →
      get_result o = Except.error (Thrown.raw e) ∧
      query_result o = Except.error (Thrown.raw e) ∧
      aggregate_result o = Except.error (Thrown.raw e) ∧
      count_result o = Except.error (Thrown.raw e) ∧
      post_result o = Except.error (Thrown.raw e) ∧
      put_result o = Except.error (Thrown.raw e) ∧
      del_result o = Except.error (Thrown.raw e)) ∧
    (∀ r, o = Outcome.fulfilled r →
      post_result o = Except.ok r.data ∧
      put_result o = Except.ok r.data ∧
      del_result o = Except.ok r.data ∧
      (r.status = 200 →
        get_result o = Except.ok r.data ∧
        query_result o = Except.ok r.data ∧
        aggregate_result o = Except.ok r.data ∧
        count_result o = Except.ok r.data) ∧
      (¬ r.status = 200 →
        get_result o = Except.error (Thrown.text r.statusText) ∧
        query_result o = Except.error (Thrown.text r.statusText) ∧
        aggregate_result o = Except.error (Thrown.text r.statusText) ∧
        count_result o = Except.error (Thrown.text r.statusText))) := by
  refine ⟨?_, ?_, ?_⟩
  · rintro r e rfl
    exact ⟨rfl, rfl, rfl, rfl, rfl, rfl, rfl⟩
  · rintro e rfl
    exact ⟨rfl, rfl, rfl, rfl, rfl, rfl, rfl⟩
  · rintro r rfl
    refine ⟨rfl, rfl, rfl, ?_, ?_⟩
    · intro h
      refine ⟨?_, ?_, ?_, ?_⟩ <;>
        simp [get_result, query_result, aggregate_result, count_result, checkedResult, h]
    · intro h
      refine ⟨?_, ?_, ?_, ?_⟩ <;>
        simp [get_result, query_result, aggregate_result, count_result, checkedResult, h]

/-- C1 counterexample.  A fulfilled response with status 201 (a non-200
status; axios fulfils all 2xx) makes `post` *resolve* with the body, so the
claim "for every operation among get, post, put, del, query, aggregate and
count a non-200 status makes the operation fail" is false: `post` (like `put`
and `del`) has no status check. -/
theorem c1_counterexample :
    ¬ (201 = 200) ∧
    post_result (Outcome.fulfilled (Response.mk 201 "Created" "BODY") : Outcome String String)
      = Except.ok "BODY" :=
  ⟨by decide, rfl⟩

/-- C1 witness: the amended theorem evaluated on a completed 404 (body
surfaced), a raw transport error (raw error surfaced), and a fulfilled 204
(statusText surfaced by the checked operations). -/
theorem c1_error_normalization_witness :
    get_result (Outcome.rejected (some (Response.mk 404 "Not Found" "EBODY")) "RAW" : Outcome String String)
      = Except.error (Thrown.body "EBODY") ∧
    del_result (Outcome.rejected Option.none "RAW" : Outcome String String)
      = Except.error (Thrown.raw "RAW") ∧
    get_result (Outcome.fulfilled (Response.mk 204 "No Content" "B") : Outcome String String)
      = Except.error (Thrown.text "No Content") := by
  have h1 := c1_error_normalization
    (Outcome.rejected (some (Response.mk 404 "Not Found" "EBODY")) "RAW" : Outcome String String)
  have h2 := c1_error_normalization
    (Outcome.rejected Option.none "RAW" : Outcome String String)
  have h3 := c1_error_normalization
    (Outcome.fulfilled (Response.mk 204 "No Content" "B") : Outcome String String)
  exact ⟨(h1.1 _ _ rfl).1, (h2.2.1 _ rfl).2.2.2.2.2.2,
    ((h3.2.2 _ rfl).2.2.2.2 (by decide)).1⟩

/-- C2.  The query string built by `_configParams`: the configured apikey is
injected into the mapping (overwriting any caller-supplied apikey); every key
bound to a sequence of n elements contributes exactly n serialized parts, one
per element in element order, each value percent-encoded; every scalar key
contributes exactly one part; the parts are joined with `&` in the mapping
insertion order (the key multiset of the parts is the insertion-ordered
expansion of the mapping).  The phrase "n occurrences of `k=`" is read
structurally, as the number of serialized `key=value` parts whose key is `k`
(the source builds the parts exactly as `key ++ "=" ++ value`). -/
theorem c2_config_params (c : Client) (opts : OptsMap)
    (hm : (opts.map Prod.fst).Nodup) :
    findVal (_configParams c opts).opts "apikey"
      = some (QVal.scalar (QScalar.str c.apikey)) ∧
    (∀ k l, findVal (_configParams c opts).opts k = some (QVal.seq l) →
      ((_configParams c opts).pairs.filter (fun p => p.1 == k)).length = l.length ∧
      ((_configParams c opts).pairs.filter (fun p => p.1 == k)).map Prod.snd
        = l.map (fun x => encodeURIComponent x.render)) ∧
    (∀ k x, findVal (_configParams c opts).opts k = some (QVal.scalar x) →
      (_configParams c opts).pairs.filter (fun p => p.1 == k)
        = [(k, encodeURIComponent x.render)]) ∧
    (_configParams c opts).qs
      = String.intercalate "&" ((_configParams c opts).pairs.map (fun p => p.1 ++ "=" ++ p.2)) ∧
    (_configParams c opts).pairs.map Prod.fst
      = (_configParams c opts).opts.flatMap (fun p => List.replicate (qvalLen p.2) p.1) := by
  have hm2 : (((_configParams c opts).opts).map Prod.fst).Nodup :=
    setKey_nodup opts "apikey" (QVal.scalar (QScalar.str c.apikey)) hm
  refine ⟨findVal_setKey_self opts "apikey" _, ?_, ?_, rfl, pairsOf_keys _⟩
  · intro k l h
    have hfe : ((_configParams c opts).pairs.filter (fun p => p.1 == k))
        = l.map (fun x => (k, encodeURIComponent x.render)) :=
      pairsOf_filter_findVal ((_configParams c opts).opts) k (QVal.seq l) hm2 h
    constructor
    · rw [hfe, List.length_map]
    · rw [hfe]
      simp
  · intro k x h
    exact pairsOf_filter_findVal ((_configParams c opts).opts) k (QVal.scalar x) hm2 h

/-- C2 witness: a mapping with a two-element sequence under `filter[tag]`
(values needing percent-encoding) and a scalar `limit`; the serialization
contains exactly two `filter[tag]` parts in element order and one `limit`
part, plus the injected apikey. -/
theorem c2_config_params_witness :
    findVal (_configParams clientEx
        [("filter[tag]", QVal.seq [QScalar.str "a b", QScalar.str "c"]),
         ("limit", QVal.scalar (QScalar.num 10))]).opts "apikey"
      = some (QVal.scalar (QScalar.str "k")) ∧
    ((_configParams clientEx
        [("filter[tag]", QVal.seq [QScalar.str "a b", QScalar.str "c"]),
         ("limit", QVal.scalar (QScalar.num 10))]).pairs.filter
          (fun p => p.1 == "filter[tag]")).map Prod.snd = ["a%20b", "c"] ∧
    (_configParams clientEx
        [("filter[tag]", QVal.seq [QScalar.str "a b", QScalar.str "c"]),
         ("limit", QVal.scalar (QScalar.num 10))]).pairs.filter
          (fun p => p.1 == "limit") = [("limit", "10")] := by
  have h := c2_config_params clientEx
    [("filter[tag]", QVal.seq [QScalar.str "a b", QScalar.str "c"]),
     ("limit", QVal.scalar (QScalar.num 10))] (by decide)
  refine ⟨h.1, ?_, ?_⟩
  · have h2 := (h.2.1 "filter[tag]" [QScalar.str "a b", QScalar.str "c"] (by decide)).2
    exact h2.trans (by decide)
  · have h3 := h.2.2.1 "limit" (QScalar.num 10) (by decide)
    exact h3.trans (by decide)

/-- C3 (code bug).  `sync` never reconciles anything: for every client,
filter key/value and desired set — in particular the claimed fixture of
desired `[{_id:"a"}, {name:"new"}]` against current `[{_id:"a"},{_id:"b"}]` —
it issues exactly the one filtered GET (whose result it then discards, having
read `.data` off the un-awaited Promise at source line 551) and rejects with
a TypeError; no insert, update or delete request is ever issued, instead of
the claimed one insert, one update and one delete. -/
theorem c3_sync_typeerror :
    sync clientEx "thing" "parent" "p1" [[("_id", "a")], [("name", "new")]]
      = ([{ method := Method.GET,
            url := "http://a/api/thing?filter[parent]=p1&apikey=k",
            body := ReqBody.none }],
         Except.error syncTypeError) := rfl

/-- C4 (code bug).  `del_all` never deletes anything: for every client and
filter key/value — in particular the claimed three-matching-records fixture —
it throws a ReferenceError at its first step (`self.get`, source line 534,
with `self` unbound) and rejects, issuing zero requests instead of the
claimed filtered fetch followed by three sequential deletes. -/
theorem c4_del_all_referenceerror :
    del_all clientEx "thing" "parent" "p1" = ([], Except.error delAllRefError) := rfl

/-- C5.  `postput` first issues the `get` filtered by
`filter[key] = data[key]`; when the envelope that `get` returns has no
records it issues exactly one `post` of `data`, and when it has one or more
records (ambiguous multiples included) it issues exactly one `put` targeting
`data[0]._id`, the `_id` of the first returned record. -/
theorem c5_postput_requests (c : Client) (type key : String) (data : JsRecord)
    (fetched : GetEnvelope) :
    (fetched.data = [] →
      postput c type key data fetched
        = [(get_request c type (postput_get_opts key data)).1,
           post_request c type data]) ∧
    (∀ r rs, fetched.data = r :: rs →
      postput c type key data fetched
        = [(get_request c type (postput_get_opts key data)).1,
           put_request c type ((recGet r "_id").getD "undefined") data]) := by
  constructor
  · intro h
    simp [postput, h]
  · intro r rs h
    simp [postput, h]

/-- C5 witness: with an empty envelope `postput` issues get-then-post; with a
two-record envelope it issues get-then-put targeting the id of the first record
(`x1`), ignoring the second. -/
theorem c5_postput_witness :
    postput clientEx "user" "email" [("email", "a@b")] (GetEnvelope.mk [] 0)
      = [(get_request clientEx "user" (postput_get_opts "email" [("email", "a@b")])).1,
         post_request clientEx "user" [("email", "a@b")]] ∧
    postput clientEx "user" "email" [("email", "a@b")]
        (GetEnvelope.mk [[("_id", "x1"), ("email", "a@b")], [("_id", "x2")]] 2)
      = [(get_request clientEx "user" (postput_get_opts "email" [("email", "a@b")])).1,
         put_request clientEx "user" "x1" [("email", "a@b")]] := by
  constructor
  · exact (c5_postput_requests clientEx "user" "email" [("email", "a@b")]
      (GetEnvelope.mk [] 0)).1 rfl
  · have h := (c5_postput_requests clientEx "user" "email" [("email", "a@b")]
      (GetEnvelope.mk [[("_id", "x1"), ("email", "a@b")], [("_id", "x2")]] 2)).2
      [("_id", "x1"), ("email", "a@b")] [[("_id", "x2")]] rfl
    exact h.trans (by decide)

/-- C6 (amended).  `login` resolves (does not reject) with the backend
error response body whenever a failed call carries a completed HTTP response;
but when a call fails with a raw transport error (no response), the catch
block expression `err.response.data` itself throws, so `login` *rejects* with a
TypeError — refuting the unconditional claim "resolves on failure"
(`c6_counterexample`).  On success it resolves with `{data, user}`, the
URL of the second request being built from the `user_id` of the response
body of the first call. -/
theorem c6_login_behaviour (c : Client) (email password : String)
    (o1 o2 : Outcome JsRecord String) :
    (∀ r e, o1 = Outcome.rejected (some r) e →
      login c email password o1 o2
        = ([{ method := Method.POST, url := c.server ++ "/login",
              body := ReqBody.loginCreds email password }],
           Except.ok (LoginValue.errorBody r.data))) ∧
    (∀ e, o1 = Outcome.rejected Option.none e →
      (login c email password o1 o2).2 = Except.error loginTypeError) ∧
    (∀ r1, o1 = Outcome.fulfilled r1 →
      (login c email password o1 o2).1
        = [{ method := Method.POST, url := c.server ++ "/login",
             body := ReqBody.loginCreds email password },
           { method := Method.GET,
             url := c.api ++ "/user/" ++ ((recGet r1.data "user_id").getD "undefined")
               ++ "?apikey=" ++ c.apikey,
             body := ReqBody.none }] ∧
      (∀ r2, o2 = Outcome.fulfilled r2 →
        (login c email password o1 o2).2
          = Except.ok (LoginValue.success r1.data r2.data)) ∧
      (∀ r2 e, o2 = Outcome.rejected (some r2) e →
        (login c email password o1 o2).2 = Except.ok (LoginValue.errorBody r2.data)) ∧
      (∀ e, o2 = Outcome.rejected Option.none e →
        (login c email password o1 o2).2 = Except.error loginTypeError)) := by
  refine ⟨?_, ?_, ?_⟩
  · rintro r e rfl
    rfl
  · rintro e rfl
    rfl
  · rintro r1 rfl
    refine ⟨?_, ?_, ?_, ?_⟩
    · cases o2 with
      | fulfilled r2 => rfl
      | rejected ro e => cases ro <;> rfl
    · rintro r2 rfl
      rfl
    · rintro r2 e rfl
      rfl
    · rintro e rfl
      rfl

/-- C6 counterexample.  When the first backend call fails with a raw
transport error (no HTTP response), `login` does not resolve with an error
body — it rejects (with the TypeError raised by reading `.data` of the
undefined `err.response`), contradicting the claim that a failure of either
call makes `login` resolve. -/
theorem c6_counterexample :
    (login clientEx "e@x" "pw" (Outcome.rejected Option.none "ECONNREFUSED")
        (Outcome.fulfilled (Response.mk 200 "OK" ([] : JsRecord)))).2
      = Except.error loginTypeError := rfl

/-- C6 witness: a 401 with an error body makes `login` resolve with that
body after the single first request; on success the URL of the second request is
built from the `user_id` of the first response. -/
theorem c6_login_witness :
    (login clientEx "e@x" "pw"
        (Outcome.rejected (some (Response.mk 401 "Unauthorized" [("status", "fail")])) "RAW")
        (Outcome.fulfilled (Response.mk 200 "OK" ([] : JsRecord))))
      = ([{ method := Method.POST, url := "http://a/login",
            body := ReqBody.loginCreds "e@x" "pw" }],
         Except.ok (LoginValue.errorBody [("status", "fail")])) ∧
    (login clientEx "e@x" "pw"
        (Outcome.fulfilled (Response.mk 200 "OK" [("user_id", "u1")]))
        (Outcome.fulfilled (Response.mk 200 "OK" [("name", "N")]))).1
      = [{ method := Method.POST, url := "http://a/login",
           body := ReqBody.loginCreds "e@x" "pw" },
         { method := Method.GET, url := "http://a/api/user/u1?apikey=k",
           body := ReqBody.none }] := by
  have h1 := c6_login_behaviour clientEx "e@x" "pw"
    (Outcome.rejected (some (Response.mk 401 "Unauthorized" [("status", "fail")])) "RAW")
    (Outcome.fulfilled (Response.mk 200 "OK" ([] : JsRecord)))
  have h2 := c6_login_behaviour clientEx "e@x" "pw"
    (Outcome.fulfilled (Response.mk 200 "OK" [("user_id", "u1")]))
    (Outcome.fulfilled (Response.mk 200 "OK" [("name", "N")]))
  constructor
  · exact h1.1 (Response.mk 401 "Unauthorized" [("status", "fail")]) "RAW" rfl
  · exact (h2.2.2 (Response.mk 200 "OK" [("user_id", "u1")]) rfl).1

/-- C7.  For a sequence of records (the claim fixes n ≥ 1), `bulk_postput`
produces exactly one bulk POST to the `bulkwrite` endpoint whose body holds
one `updateOne` entry per record, in record order, each with `upsert = true`,
`update` equal to the record, and `filter` built from the key field(s) of
that record; a single non-sequence record is delegated to `postput` with no
bulk request. -/
theorem c7_bulk_postput_shape (c : Client) (type : String) (key : KeySpec)
    (rs : List JsRecord) (r : JsRecord) (h : 1 ≤ rs.length) :
    bulk_postput c type key (DataArg.many rs)
      = BulkDispatch.bulkRequest
          { method := Method.POST
            url := c.server ++ "/bulkwrite/" ++ type ++ "?apikey=" ++ c.apikey
            body := ReqBody.bulk (bulk_postput_updates key rs) } ∧
    (bulk_postput_updates key rs).length = rs.length ∧
    (∀ i : Nat, (bulk_postput_updates key rs)[i]?
      = (rs[i]?).map (fun item =>
          BulkOp.updateOne { upsert := true, update := item, filter := bulkFilter key item })) ∧
    bulk_postput c type key (DataArg.one r) = BulkDispatch.delegate type key r := by
  refine ⟨rfl, ?_, ?_, rfl⟩
  · simp [bulk_postput_updates]
  · intro i
    simp [bulk_postput_updates, List.getElem?_map]

/-- C7 witness: two records keyed on `email` yield one bulk request with two
`updateOne{upsert:true}` entries in order, filters built from each record
email; a single record delegates. -/
theorem c7_bulk_postput_witness :
    bulk_postput clientEx "user" (KeySpec.single "email")
        (DataArg.many [[("email", "a@b"), ("name", "A")], [("email", "c@d")]])
      = BulkDispatch.bulkRequest
          { method := Method.POST
            url := "http://a/bulkwrite/user?apikey=k"
            body := ReqBody.bulk
              [BulkOp.updateOne
                { upsert := true, update := [("email", "a@b"), ("name", "A")],
                  filter := [("email", some "a@b")] },
               BulkOp.updateOne
                { upsert := true, update := [("email", "c@d")],
                  filter := [("email", some "c@d")] }] } ∧
    bulk_postput clientEx "user" (KeySpec.single "email") (DataArg.one [("email", "a@b")])
      = BulkDispatch.delegate "user" (KeySpec.single "email") [("email", "a@b")] := by
  have h := c7_bulk_postput_shape clientEx "user" (KeySpec.single "email")
    [[("email", "a@b"), ("name", "A")], [("email", "c@d")]] [("email", "a@b")] (by decide)
  exact ⟨h.1.trans (by decide), h.2.2.2⟩

/-- C8.  Construction with `server` absent or empty fails immediately with
the configuration error and issues no request (the request list of
`construct` is empty in every case); with a non-empty `server`, the defaults
`debug = false` and `hideErrors = false` sit under the supplied options and
the API root is derived once as `server ++ "/api"`. -/
theorem c8_construct_validation (opts : ConfigPatch) :
    ((opts.server = Option.none ∨ opts.server = some "") →
      construct opts = ([], Except.error "parameter server required")) ∧
    (∀ s, opts.server = some s → ¬ s = "" →
      construct opts = ([], Except.ok
        { server := s
          api := s ++ "/api"
          apikey := opts.apikey.getD "undefined"
          debug := opts.debug.getD false
          hideErrors := opts.hideErrors.getD false })) := by
  constructor
  · intro h
    rcases h with h | h <;> simp [construct, h]
  · intro s hs hne
    simp [construct, hs, hne]

/-- C8 witness: a patch without `server` fails with the configuration error
and no request; `{server: "http://a", apikey: "k"}` succeeds with the merged
defaults and the derived API root. -/
theorem c8_construct_witness :
    construct (ConfigPatch.mk Option.none (some "k") Option.none Option.none)
      = ([], Except.error "parameter server required") ∧
    construct (ConfigPatch.mk (some "http://a") (some "k") Option.none Option.none)
      = ([], Except.ok clientEx) := by
  constructor
  · exact (c8_construct_validation
      (ConfigPatch.mk Option.none (some "k") Option.none Option.none)).1 (Or.inl rfl)
  · exact (c8_construct_validation
      (ConfigPatch.mk (some "http://a") (some "k") Option.none Option.none)).2
      "http://a" rfl (by decide)

/-- C9 (amended).  `configure({server: s2})` updates the live `server` field
immediately, so every URL built from `server` (the `url` helper serving
get/csv/query/aggregate/count and the bulk family) is rooted at `s2` on the
next call; but it does not recompute `api`, so the operations whose URLs are
rooted at `api` — `getOne`, `post`, `put`, `del` and its variants — still use
the server captured at construction, refuting the claimed "every operation"
(`c9_configure_counterexample`). -/
theorem c9_configure_server (c : Client) (s2 type id : String) (o : OptsMap) (d : JsRecord) :
    (config c (ConfigPatch.mk (some s2) Option.none Option.none Option.none)).server = s2 ∧
    (config c (ConfigPatch.mk (some s2) Option.none Option.none Option.none)).api = c.api ∧
    (∃ qs, (url (config c (ConfigPatch.mk (some s2) Option.none Option.none Option.none))
        type o "api").1 = s2 ++ "/" ++ "api" ++ "/" ++ type ++ "?" ++ qs) ∧
    getOne_request (config c (ConfigPatch.mk (some s2) Option.none Option.none Option.none))
        type id o = getOne_request c type id o ∧
    post_request (config c (ConfigPatch.mk (some s2) Option.none Option.none Option.none))
        type d = post_request c type d ∧
    put_request (config c (ConfigPatch.mk (some s2) Option.none Option.none Option.none))
        type id d = put_request c type id d ∧
    del_request (config c (ConfigPatch.mk (some s2) Option.none Option.none Option.none))
        type id = del_request c type id :=
  ⟨rfl, rfl,
    ⟨(_configParams (config c (ConfigPatch.mk (some s2) Option.none Option.none Option.none)) o).qs,
      rfl⟩, rfl, rfl, rfl, rfl⟩

/-- C9 counterexample.  A client constructed with server `"http://a"` and
then reconfigured with `configure({server: "http://b"})` still builds the
`getOne` URL from `"http://a"` (via the stale `api` field): the first
eight characters of the URL are not `"http://b"`, refuting "every operation invoked
after configure({server: s2}) builds its request URL from s2". -/
theorem c9_configure_counterexample :
    (construct (ConfigPatch.mk (some "http://a") (some "k") Option.none Option.none)).2
      = Except.ok clientEx ∧
    ((getOne_request
        (config clientEx (ConfigPatch.mk (some "http://b") Option.none Option.none Option.none))
        "user" "1" []).1).url = "http://a/api/user/1?apikey=k" ∧
    ¬ (("http://a/api/user/1?apikey=k").toList.take 8 = "http://b".toList) := by
  refine ⟨rfl, rfl, by decide⟩

/-- C10.  Every option-taking operation (`get`, `getOne`, `csv`, `query`,
`aggregate`, `count`) mutates the options object of the caller in place through
`_configParams`: the configured apikey is written into it (overwriting any
caller-supplied apikey entry, wherever it sits), `count` additionally writes
`limit = 1` into it first, every other key is left untouched, and the object
is handed back mutated — a caller reusing it observes the injected fields. -/
theorem c10_opts_mutation (c : Client) (type id q : String) (opts : OptsMap) :
    (get_request c type opts).2
      = setKey opts "apikey" (QVal.scalar (QScalar.str c.apikey)) ∧
    (getOne_request c type id opts).2
      = setKey opts "apikey" (QVal.scalar (QScalar.str c.apikey)) ∧
    (csv_request c type opts).2
      = setKey opts "apikey" (QVal.scalar (QScalar.str c.apikey)) ∧
    (query_request c type q opts).2
      = setKey opts "apikey" (QVal.scalar (QScalar.str c.apikey)) ∧
    (aggregate_request c type q opts).2
      = setKey opts "apikey" (QVal.scalar (QScalar.str c.apikey)) ∧
    (count_request c type opts).2
      = setKey (setKey opts "limit" (QVal.scalar (QScalar.num 1))) "apikey"
          (QVal.scalar (QScalar.str c.apikey)) ∧
    findVal ((get_request c type opts).2) "apikey"
      = some (QVal.scalar (QScalar.str c.apikey)) ∧
    findVal ((count_request c type opts).2) "apikey"
      = some (QVal.scalar (QScalar.str c.apikey)) ∧
    findVal ((count_request c type opts).2) "limit"
      = some (QVal.scalar (QScalar.num 1)) ∧
    (∀ k, ¬ k = "apikey" →
      findVal ((get_request c type opts).2) k = findVal opts k) ∧
    (∀ k, ¬ k = "apikey" → ¬ k = "limit" →
      findVal ((count_request c type opts).2) k = findVal opts k) := by
  refine ⟨rfl, rfl, rfl, rfl, rfl, rfl, ?_, ?_, ?_, ?_, ?_⟩
  · exact findVal_setKey_self opts "apikey" _
  · exact findVal_setKey_self (setKey opts "limit" (QVal.scalar (QScalar.num 1))) "apikey" _
  · rw [show (count_request c type opts).2
        = setKey (setKey opts "limit" (QVal.scalar (QScalar.num 1))) "apikey"
            (QVal.scalar (QScalar.str c.apikey)) from rfl,
      findVal_setKey_other _ "apikey" _ "limit" (by decide)]
    exact findVal_setKey_self opts "limit" _
  · intro k hk
    exact findVal_setKey_other opts "apikey" _ k hk
  · intro k hk hl
    rw [show (count_request c type opts).2
        = setKey (setKey opts "limit" (QVal.scalar (QScalar.num 1))) "apikey"
            (QVal.scalar (QScalar.str c.apikey)) from rfl,
      findVal_setKey_other _ "apikey" _ k hk]
    exact findVal_setKey_other opts "limit" _ k hl

/-- C10 witness: a caller-supplied mapping with its own apikey and limit:
after `get` the caller apikey is overwritten by the configured one; after
`count` the limit is overwritten by 1; the unrelated key `foo` is untouched. -/
theorem c10_opts_mutation_witness :
    (get_request clientEx "user"
        [("apikey", QVal.scalar (QScalar.str "caller")), ("foo", QVal.scalar (QScalar.num 7))]).2
      = [("apikey", QVal.scalar (QScalar.str "k")), ("foo", QVal.scalar (QScalar.num 7))] ∧
    findVal ((count_request clientEx "user"
        [("apikey", QVal.scalar (QScalar.str "caller")),
         ("limit", QVal.scalar (QScalar.num 5))]).2) "limit"
      = some (QVal.scalar (QScalar.num 1)) ∧
    findVal ((get_request clientEx "user"
        [("apikey", QVal.scalar (QScalar.str "caller")), ("foo", QVal.scalar (QScalar.num 7))]).2)
        "foo"
      = findVal [("apikey", QVal.scalar (QScalar.str "caller")),
          ("foo", QVal.scalar (QScalar.num 7))] "foo" ∧
    findVal ((count_request clientEx "user"
        [("apikey", QVal.scalar (QScalar.str "caller")),
         ("limit", QVal.scalar (QScalar.num 5))]).2) "foo"
      = findVal [("apikey", QVal.scalar (QScalar.str "caller")),
          ("limit", QVal.scalar (QScalar.num 5))] "foo" := by
  have h1 := c10_opts_mutation clientEx "user" "1" "q"
    [("apikey", QVal.scalar (QScalar.str "caller")), ("foo", QVal.scalar (QScalar.num 7))]
  have h2 := c10_opts_mutation clientEx "user" "1" "q"
    [("apikey", QVal.scalar (QScalar.str "caller")), ("limit", QVal.scalar (QScalar.num 5))]
  refine ⟨h1.1.trans (by decide), h2.2.2.2.2.2.2.2.2.1, ?_, ?_⟩
  · exact h1.2.2.2.2.2.2.2.2.2.1 "foo" (by decide)
  · exact h2.2.2.2.2.2.2.2.2.2.2 "foo" (by decide) (by decide)

end JXP
